import Mathlib

/-!
Verification development for the static-site mirroring script (`sync.js` and
its revisions).  The script fetches a page, rewrites asset references to
local paths, downloads the assets, recursively scans downloaded CSS,
post-processes downloaded JS, audits the result and writes `index.html`.

The embedding below translates the script's functions into Lean:

* text is `String` (operated on through its underlying `List Char`);
* the filesystem is an association list written by consing (Node's
  `fs.writeFileSync` overwrite semantics are captured at lookup level:
  the most recent write of a path wins);
* the fetch transport (`axios`) is a parameter `fetch : String → Option String`
  (`none` models a failed request);
* Node's WHATWG `new URL(input, base)` is modelled by `resolveUrl` below,
  returning `none` where the constructor throws;
* fallible script fragments (uncaught exceptions) are `Option`-valued;
* regex scans are translated into fuel-indexed character scanners
  (fuel = input length, which is always sufficient since each step
  consumes at least one character).
-/

abbrev Chars := List Char

/-- Occurrence test: `subOf pat s` is true when `pat` occurs as a contiguous
substring of `s` (JavaScript `s.includes(pat)`). -/
def subOf (pat : Chars) : Chars → Bool
  | [] => pat.isEmpty
  | c :: rest => pat.isPrefixOf (c :: rest) || subOf pat rest

/-- String-level inclusion test, JavaScript `s.includes(pat)`. -/
def containsStr (pat s : String) : Bool := subOf pat.data s.data

/-- String prefix test via the underlying character lists. -/
def strStarts (p s : String) : Bool := p.data.isPrefixOf s.data

/-- If `p` is a literal prefix of `s`, return the remainder. -/
def dropPref : Chars → Chars → Option Chars
  | [], s => some s
  | _ :: _, [] => none
  | p :: ps, c :: cs => if p == c then dropPref ps cs else none

/-- Split a character list at every occurrence of `ch`
(JavaScript `s.split(ch)`). -/
def splitChar (ch : Char) : Chars → List Chars
  | [] => [[]]
  | c :: rest =>
    let r := splitChar ch rest
    if c == ch then [] :: r
    else
      match r with
      | h :: t => (c :: h) :: t
      | [] => [[c]]

/-- Node `path.posix.basename`: ignore trailing slashes, then take the final
path component. -/
def basename (p : String) : String :=
  ⟨((p.data.reverse.dropWhile (· == '/')).takeWhile (· != '/')).reverse⟩

/-- JavaScript `s.split('#')[0].split('?')[0]`: drop the fragment and the
query string of a raw reference. -/
def stripQF (s : String) : String :=
  ⟨(s.data.takeWhile (· != '#')).takeWhile (· != '?')⟩

/-- JavaScript `s.split('?')[0]`: drop everything from the first `?` on. -/
def stripQ (s : String) : String := ⟨s.data.takeWhile (· != '?')⟩

/-- Node `path.join dir file` for a directory and a plain filename. -/
def pathJoin (d f : String) : String := d ++ "/" ++ f

/-! ## URL model

A shallow model of the WHATWG URL parser used by Node's `URL` class,
covering the forms the script manipulates.  `hasAuth` distinguishes
`scheme://host/path` URLs from opaque ones (`mailto:x`).  Percent-encoding
normalization, userinfo, default-port stripping and `\` → `/` conversion
are outside the model. -/

structure Url where
  scheme : String
  hasAuth : Bool
  host : String
  path : String
  query : Option String
  fragment : Option String
deriving Repr, DecidableEq

/-- Serialized form of a URL (the `.href` property). -/
def Url.href (u : Url) : String :=
  u.scheme ++ ":" ++ (if u.hasAuth then "//" ++ u.host else "") ++ u.path ++
    (match u.query with | some q => "?" ++ q | none => "") ++
    (match u.fragment with | some f => "#" ++ f | none => "")

def isSchemeChar (c : Char) : Bool :=
  c.isAlpha || c.isDigit || c == '+' || c == '-' || c == '.'

/-- Extract a leading `scheme:` from a reference, returning the scheme and
the remainder after the colon. -/
def getScheme (s : Chars) : Option (String × Chars) :=
  match s with
  | [] => none
  | c :: _ =>
    if c.isAlpha then
      match s.dropWhile isSchemeChar with
      | ':' :: after => some (⟨s.takeWhile isSchemeChar⟩, after)
      | _ => none
    else none

/-- Characters acceptable inside a host (approximate WHATWG forbidden-host
set; the port digits after `:` are kept as part of the host). -/
def isHostChar (c : Char) : Bool :=
  !(c.isWhitespace || c == '#' || c == '/' || c == '?' || c == '@' ||
    c == '[' || c == ']' || c == '\\' || c == '^' || c == '|' ||
    c == '<' || c == '>')

/-- Split off an optional suffix starting at the first occurrence of `ch`;
the second component is `some rest` when `ch` occurs. -/
def splitAt1 (ch : Char) (s : Chars) : Chars × Option Chars :=
  (s.takeWhile (· != ch),
    match s.dropWhile (· != ch) with
    | [] => none
    | _ :: rest => some rest)

/-- Split a `path?query#fragment` tail into its three parts. -/
def pqf (s : Chars) : Chars × Option String × Option String :=
  let (beforeFrag, frag) := splitAt1 '#' s
  let (p, q) := splitAt1 '?' beforeFrag
  (p, q.map (⟨·⟩), frag.map (⟨·⟩))

/-- Process the segments of a path, eliminating `.` and `..`
(RFC 3986 remove-dot-segments, as the WHATWG path state performs it). -/
def normSegs (acc : List String) : List String → List String
  | [] => acc.reverse
  | [s] =>
    if s = ".." then (acc.drop 1).reverse ++ [""]
    else if s = "." then acc.reverse ++ [""]
    else acc.reverse ++ [s]
  | s :: rest =>
    if s = ".." then normSegs (acc.drop 1) rest
    else if s = "." then normSegs acc rest
    else normSegs (s :: acc) rest

/-- Join path segments with `/`. -/
def joinSegs : List String → String
  | [] => ""
  | [s] => s
  | s :: rest => s ++ "/" ++ joinSegs rest

/-- Dot-segment normalization of an absolute path (starting with `/`). -/
def remDots (p : String) : String :=
  "/" ++ joinSegs (normSegs [] (((splitChar '/' p.data).map (⟨·⟩)).drop 1))

/-- Parse `host/path?query#fragment` (the part after `scheme://`). -/
def parseAfterSlashes (scheme : String) (s : Chars) : Option Url :=
  let hostChars := s.takeWhile (fun c => c != '/' && c != '?' && c != '#')
  if hostChars.isEmpty || !hostChars.all isHostChar then none
  else
    let (p, q, f) := pqf (s.dropWhile (fun c => c != '/' && c != '?' && c != '#'))
    some ⟨scheme, true, ⟨hostChars⟩, if p.isEmpty then "/" else remDots ⟨p⟩, q, f⟩

/-- Parse an absolute URL string, `none` where Node's `new URL(s)` throws.
For the special schemes `http`/`https` the parser is lenient about the
number of slashes after the colon, as the WHATWG parser is. -/
def parseAbsUrl (s : String) : Option Url :=
  match getScheme s.data with
  | none => none
  | some (sch, rest) =>
    if sch == "http" || sch == "https" then
      parseAfterSlashes sch (rest.dropWhile (fun c => c == '/' || c == '\\'))
    else
      match rest with
      | '/' :: '/' :: after => parseAfterSlashes sch after
      | _ =>
        let (p, q, f) := pqf rest
        some ⟨sch, false, "", ⟨p⟩, q, f⟩

/-- The directory part of a path, up to and including the last `/`. -/
def dirOf (p : String) : String :=
  ⟨(p.data.reverse.dropWhile (· != '/')).reverse⟩

/-- Resolve a scheme-less reference against a base URL
(WHATWG relative state). -/
def resolveRel (s : Chars) (base : Url) : Option Url :=
  if !base.hasAuth then none
  else
    match s with
    | [] => some { base with fragment := none }
    | '/' :: '/' :: after => parseAfterSlashes base.scheme after
    | '/' :: _ =>
      let (p, q, f) := pqf s
      some { base with path := remDots ⟨p⟩, query := q, fragment := f }
    | '?' :: _ =>
      let (_, q, f) := pqf s
      some { base with query := q, fragment := f }
    | '#' :: rest => some { base with fragment := some ⟨rest⟩ }
    | _ =>
      let (p, q, f) := pqf s
      some { base with path := remDots (dirOf base.path ++ ⟨p⟩), query := q,
                       fragment := f }

/-- Model of Node `new URL(ref, base)`: `none` where the constructor throws.
A reference carrying the base's own (special) scheme but no `//` is treated
as relative, as the WHATWG parser does. -/
def resolveUrl (ref : String) (base : Url) : Option Url :=
  match getScheme ref.data with
  | some (sch, rest) =>
    if (sch == "http" || sch == "https") && sch == base.scheme &&
        !(['/', '/'].isPrefixOf rest) then
      resolveRel rest base
    else parseAbsUrl ref
  | none => resolveRel ref.data base

/-! ## Program constants and the asset resolver (`addAsset` in `sync.js`)

`OUT_DIR` (the script directory `__dirname`) is modelled by the symbolic
absolute path `/out`. -/

def OUT_DIR : String := "/out"

def ASSETS_DIR : String := "/out/assets"

def BASE_URL : String := "https://global-indesign.base44.app"

/-- The parsed form of `BASE_URL` (`new URL(url, BASE_URL)` parses the base
string; it is constant, so it is precomputed here). -/
def siteBase : Url :=
  ⟨"https", true, "global-indesign.base44.app", "/", none, none⟩

/-- An entry of the `assetsToDownload` queue. -/
structure AssetItem where
  url : String
  filepath : String
  isCss : Bool
  originalUrl : String
deriving Repr, DecidableEq

/-- Translation of the `addAsset` helper of `main`.  First component: the
queue entry pushed onto `assetsToDownload` (if any).  Second component: the
value returned to the caller — `none` models JavaScript `undefined` (empty
or `data:` reference), `some url` the catch branch (resolution threw), and
`some newPath` the rewritten local reference. -/
def addAsset (url : String) (isCss : Bool) : Option AssetItem × Option String :=
  if url = "" then (none, none)
  else if strStarts "data:" url then (none, none)
  else
    match resolveUrl url siteBase with
    | none => (none, some url)
    | some u =>
      let abs := u.href
      let filename := basename u.path
      let localDir :=
        if !containsStr "/assets/" abs && filename == "manifest.json" then OUT_DIR
        else ASSETS_DIR
      let newPath :=
        if localDir == OUT_DIR then "./" ++ filename else "./assets/" ++ filename
      (some ⟨abs, pathJoin localDir filename, isCss, url⟩, some newPath)

/-! ## Filesystem and fetch transport

The filesystem is an association list; `writeFs` conses, and `lookupFs`
returns the most recent write, which models `fs.writeFileSync` overwriting. -/

abbrev FS := List (String × String)

def writeFs (fs : FS) (p v : String) : FS := (p, v) :: fs

def lookupFs (fs : FS) (p : String) : Option String :=
  (fs.find? (fun kv => kv.1 == p)).map (·.2)

def existsFs (fs : FS) (p : String) : Bool := (lookupFs fs p).isSome

/-- Translation of `downloadFile`: on transport success the bytes are
written to `filepath` and returned; on failure the error is logged and
`null` (`none`) is returned, with no write.  The surrounding `try/catch`
means this function never throws. -/
def downloadFile (fetch : String → Option String) (url filepath : String)
    (fs : FS) : FS × Option String :=
  match fetch url with
  | some d => (writeFs fs filepath d, some d)
  | none => (fs, none)

/-! ## CSS scanner (`processCss`)

The regex `/url\((['"]?)(.*?)\1\)/g` is translated into a character
scanner: at each position try to match `url(`, then either a quoted lazy
capture (with backtracking into the unquoted form, as the regex engine
backtracks on the optional quote group) or an unquoted lazy capture up to
the first `)`.  The `.` of the regex excludes line terminators.  The
scanner is fuel-indexed with fuel = input length, which suffices because
every step consumes at least one character. -/

def isDotChar (c : Char) : Bool :=
  !(c == '\n' || c == '\r' || c == ' ' || c == ' ')

/-- Lazy capture for the quoted alternative: shortest run of `.`-matchable
characters followed by the quote `q` and `)`.  Returns the capture and the
remainder after the closing `)`. -/
def lazyQuoted (q : Char) : Chars → Option (Chars × Chars)
  | [] => none
  | [_] => none
  | c :: r1 :: rtail =>
    if c == q && r1 == ')' then some ([], rtail)
    else if isDotChar c then
      (lazyQuoted q (r1 :: rtail)).map (fun pr => (c :: pr.1, pr.2))
    else none

/-- Lazy capture for the unquoted alternative: shortest run of
`.`-matchable characters followed by `)`. -/
def lazyPlain : Chars → Option (Chars × Chars)
  | [] => none
  | c :: rest =>
    if c == ')' then some ([], rest)
    else if isDotChar c then
      (lazyPlain rest).map (fun pr => (c :: pr.1, pr.2))
    else none

/-- Attempt the regex body right after a literal `url(`. -/
def tryUrlMatch (s : Chars) : Option (Chars × Chars) :=
  match s with
  | [] => none
  | c :: rest =>
    if c == '\'' || c == '"' then
      match lazyQuoted c rest with
      | some pr => some pr
      | none => lazyPlain s
    else lazyPlain s

/-- One scan step per unit of fuel: leftmost, non-overlapping matches of
the CSS `url(...)` regex, resuming after each match. -/
def scanCssF : Nat → Chars → List Chars
  | 0, _ => []
  | _ + 1, [] => []
  | fuel + 1, c :: rest =>
    match dropPref "url(".data (c :: rest) with
    | some after =>
      match tryUrlMatch after with
      | some (cap, rem) => cap :: scanCssF fuel rem
      | none => scanCssF fuel rest
    | none => scanCssF fuel rest

/-- All captures of the `url(...)` regex over a stylesheet text. -/
def cssUrls (css : String) : List String :=
  (scanCssF css.data.length css.data).map (⟨·⟩)

/-- The references `processCss` keeps: not `data:`-inline and not already
absolute (`http`-prefixed). -/
def cssCandidates (css : String) : List String :=
  (cssUrls css).filter (fun u => !strStarts "data:" u && !strStarts "http" u)

/-- Loop body of `processCss` over the surviving candidates.  Each
iteration resolves the raw reference (query/fragment intact) against the
stylesheet's own URL, derives the stored filename from the
query/fragment-stripped reference, and downloads.  `new URL` throwing here
is uncaught, which aborts the run: modelled by `none`.  The returned list
logs every `downloadFile` invocation as `(url, filepath)`. -/
def processCssGo (fetch : String → Option String) (baseStr : String) :
    FS → List String → Option (FS × List (String × String))
  | fs, [] => some (fs, [])
  | fs, relUrl :: rest =>
    match parseAbsUrl baseStr with
    | none => none
    | some base =>
      match resolveUrl relUrl base with
      | none => none
      | some u =>
        let filepath := pathJoin ASSETS_DIR (basename (stripQF relUrl))
        let fs1 := (downloadFile fetch u.href filepath fs).1
        match processCssGo fetch baseStr fs1 rest with
        | none => none
        | some (fs2, log) => some (fs2, (u.href, filepath) :: log)

/-- Translation of `processCss cssContent baseUrl`. -/
def processCssRun (fetch : String → Option String) (fs : FS) (css : String)
    (baseStr : String) : Option (FS × List (String × String)) :=
  processCssGo fetch baseStr fs (cssCandidates css)

/-! ## Collection pass and download loop of `main` -/

/-- Collection pass over the asset-bearing references of the document
(`link`/`script`/`img`/`meta` passes).  The document is abstracted to the
list of attribute values reaching `addAsset`, each with its
`rel === 'stylesheet'` flag.  When `addAsset` returns `undefined`
(`none`), cheerio's `attr(name, undefined)` acts as a getter, so the
attribute keeps its original value. -/
def collectRefs : List (String × Bool) → List AssetItem × List String
  | [] => ([], [])
  | (url, isCss) :: rest =>
    let r := addAsset url isCss
    let (q, attrs) := collectRefs rest
    let attr := match r.2 with | some p => p | none => url
    match r.1 with
    | some a => (a :: q, attr :: attrs)
    | none => (q, attr :: attrs)

/-- One iteration of the download loop: fetch the asset and, when it is a
stylesheet that downloaded successfully, recurse into its text via
`processCss`.  The log records every `downloadFile` invocation. -/
def assetStep (fetch : String → Option String) (fs : FS) (a : AssetItem) :
    Option (FS × List (String × String)) :=
  match downloadFile fetch a.url a.filepath fs, a.isCss with
  | (fs1, some d), true =>
    match processCssRun fetch fs1 d a.url with
    | none => none
    | some (fs2, cssLog) => some (fs2, (a.url, a.filepath) :: cssLog)
  | (fs1, _), _ => some (fs1, [(a.url, a.filepath)])

/-- The `for (const asset of assetsToDownload)` loop. -/
def downloadLoop (fetch : String → Option String) :
    FS → List AssetItem → Option (FS × List (String × String))
  | fs, [] => some (fs, [])
  | fs, a :: rest =>
    match assetStep fetch fs a with
    | none => none
    | some (fs1, log1) =>
      match downloadLoop fetch fs1 rest with
      | none => none
      | some (fs2, log2) => some (fs2, log1 ++ log2)

/-- Result of a completed mirror run: the final filesystem, the log of
`downloadFile` invocations, and the rewritten attribute values. -/
structure RunResult where
  fs : FS
  log : List (String × String)
  attrs : List String
deriving Repr, DecidableEq

/-- Translation of `main` in `sync.js`: fetch the entry document (fatal on
failure), collect and rewrite references, download everything with CSS
recursion, then write `index.html`.  HTML parsing and serialization are
external capabilities, passed as `parse` (document text to the reference
list reaching `addAsset`) and `render` (document text and rewritten
attribute values to the serialized output). -/
def mirrorRun (fetch : String → Option String)
    (parse : String → List (String × Bool))
    (render : String → List String → String) (fs : FS) : Option RunResult :=
  match fetch BASE_URL with
  | none => none
  | some html =>
    let (queue, attrs) := collectRefs (parse html)
    match downloadLoop fetch fs queue with
    | none => none
    | some (fs1, log) =>
      some ⟨writeFs fs1 (pathJoin OUT_DIR "index.html") (render html attrs),
            log, attrs⟩

/-! ## JavaScript post-processing pass (revision with steps 4 and 5 of
`main`)

The regex `/https:\/\/qtrypzzcjebvfcihiynt\.supabase\.co\/storage\/v1\/[^\s'"]+/g`
is a literal prefix followed by a greedy nonempty run of characters that
are not whitespace or quotes. -/

def supaPref : Chars :=
  "https://qtrypzzcjebvfcihiynt.supabase.co/storage/v1/".data

/-- Characters that terminate a remote-storage URL match
(the `[^\s'"]` class, negated). -/
def isJsStop (c : Char) : Bool := c.isWhitespace || c == '\'' || c == '"'

/-- Leftmost, non-overlapping matches of the remote-storage URL regex. -/
def scanJsF : Nat → Chars → List Chars
  | 0, _ => []
  | _ + 1, [] => []
  | fuel + 1, c :: rest =>
    match dropPref supaPref (c :: rest) with
    | some after =>
      let tailChars := after.takeWhile (fun c => !isJsStop c)
      if tailChars.isEmpty then scanJsF fuel rest
      else (supaPref ++ tailChars) :: scanJsF fuel (after.dropWhile (fun c => !isJsStop c))
    | none => scanJsF fuel rest

/-- All matches of the remote-storage URL pattern in a script text
(`jsContent.match(remoteUrlRegex) || []`; duplicates are kept). -/
def jsMatches (s : String) : List String :=
  (scanJsF s.data.length s.data).map (⟨·⟩)

/-- JavaScript `s.split(pat).join(rep)` for nonempty `pat`: replace every
leftmost non-overlapping occurrence.  Fuel = input length (each step
consumes at least one character since `pat` is nonempty; for empty `pat`
the input is returned unchanged, a case the script never reaches). -/
def splitJoinF (pat rep : Chars) : Nat → Chars → Chars
  | 0, s => s
  | _ + 1, [] => []
  | fuel + 1, c :: rest =>
    if pat.isEmpty then c :: rest
    else
      match dropPref pat (c :: rest) with
      | some after => rep ++ splitJoinF pat rep fuel after
      | none => c :: splitJoinF pat rep fuel rest

/-- String-level replace-all (`jsContent.split(remoteUrl).join(localPath)`). -/
def replaceAll (s pat rep : String) : String :=
  ⟨splitJoinF pat.data rep.data s.data.length s.data⟩

/-- One iteration of the JS post-processing loop, for the match string `m`.
Derives the local filename from the query-stripped pathname, downloads the
URL only if its destination file is absent from disk, then substitutes
every occurrence of the exact match string.  A `new URL` throw is caught
and skips the match.  The log records the match string for each
`downloadFile` invocation (whose URL argument is the match's `href`). -/
def jsStep (fetch : String → Option String) (fs : FS) (content : String)
    (m : String) : FS × String × List String :=
  match parseAbsUrl m with
  | none => (fs, content, [])
  | some u =>
    if existsFs fs (pathJoin ASSETS_DIR (basename (stripQ u.path))) then
      (fs, replaceAll content m ("./assets/" ++ basename (stripQ u.path)), [])
    else
      ((downloadFile fetch u.href (pathJoin ASSETS_DIR (basename (stripQ u.path))) fs).1,
       replaceAll content m ("./assets/" ++ basename (stripQ u.path)), [m])

/-- Fold of `jsStep` over a match list (the matches are computed once, up
front, from the original content). -/
def processJsMatches (fetch : String → Option String) :
    FS → String → List String → FS × String × List String
  | fs, content, [] => (fs, content, [])
  | fs, content, m :: rest =>
    let (fs1, c1, l1) := jsStep fetch fs content m
    let (fs2, c2, l2) := processJsMatches fetch fs1 c1 rest
    (fs2, c2, l1 ++ l2)

/-- Translation of the per-file body of the JS post-processing loop. -/
def processJsFile (fetch : String → Option String) (fs : FS)
    (content : String) : FS × String × List String :=
  processJsMatches fetch fs content (jsMatches content)

/-! ## Final audit (step 5 of the `part_000` revision)

The audit reads `index.html` from the output directory and the JS files
from the assets directory, scans the concatenation for
`./assets/`-shaped tokens, deduplicates them and reports each whose file
does not exist.  Note that in the source this runs before `index.html`
is written (step 8), so `readFileSync` reads whatever a previous run left
behind and throws when there is none. -/

/-- Characters of the `[a-zA-Z0-9._-]` class. -/
def isAssetNameChar (c : Char) : Bool :=
  c.isAlpha || c.isDigit || c == '.' || c == '_' || c == '-'

/-- Leftmost, non-overlapping matches of `/\.\/assets\/[a-zA-Z0-9._-]+/g`. -/
def scanLocalF : Nat → Chars → List Chars
  | 0, _ => []
  | _ + 1, [] => []
  | fuel + 1, c :: rest =>
    match dropPref "./assets/".data (c :: rest) with
    | some after =>
      let name := after.takeWhile isAssetNameChar
      if name.isEmpty then scanLocalF fuel rest
      else ("./assets/".data ++ name) :: scanLocalF fuel (after.dropWhile isAssetNameChar)
    | none => scanLocalF fuel rest

/-- All `./assets/<name>` tokens in the audited text. -/
def localAssetRefs (s : String) : List String :=
  (scanLocalF s.data.length s.data).map (⟨·⟩)

/-- JavaScript `arr.join(sep)`. -/
def joinWith (sep : String) : List String → String
  | [] => ""
  | [s] => s
  | s :: rest => s ++ sep ++ joinWith sep rest

/-- First-seen-order deduplication (`[...new Set(xs)]`). -/
def dedupAcc (seen : List String) : List String → List String
  | [] => []
  | x :: rest =>
    if seen.contains x then dedupAcc seen rest
    else x :: dedupAcc (x :: seen) rest

/-- Translation of the final audit.  `jsFiles` is the list of `.js`
filenames enumerated before the JS pass.  Returns the warning list, or
`none` when `readFileSync` on the not-yet-written `index.html` throws,
which aborts the run. -/
def finalAudit (fs : FS) (jsFiles : List String) : Option (List String) :=
  match lookupFs fs (pathJoin OUT_DIR "index.html") with
  | none => none
  | some idx =>
    let jsTexts := jsFiles.map (fun f => (lookupFs fs (pathJoin ASSETS_DIR f)).getD "")
    let allContent := idx ++ joinWith " " jsTexts
    let uniq := dedupAcc [] (localAssetRefs allContent)
    some (uniq.filter (fun ap =>
      let filename := basename ap
      !existsFs fs (pathJoin ASSETS_DIR filename) && filename != "assets"))

/-- The audit step followed by the `index.html` write (steps 5 and 8 of
the `part_000` revision): the write is only reached when the audit did
not throw. -/
def auditThenWrite (fs : FS) (jsFiles : List String) (htmlOut : String) :
    Option (FS × List String) :=
  match finalAudit fs jsFiles with
  | none => none
  | some warns =>
    some (writeFs fs (pathJoin OUT_DIR "index.html") htmlOut, warns)

/-! ## Shared lemmas about the filesystem model and the download loop -/

theorem lookupFs_write (fs : FS) (k v p : String) :
    lookupFs (writeFs fs k v) p = if k == p then some v else lookupFs fs p := by
  simp only [lookupFs, writeFs, List.find?_cons]
  cases h : (k == p) <;> simp [h]

theorem existsFs_write_mono (fs : FS) (k v p : String)
    (h : existsFs fs p = true) : existsFs (writeFs fs k v) p = true := by
  simp only [existsFs, lookupFs_write]
  cases hk : (k == p)
  · simpa using h
  · simp

theorem lookupFs_append (d fs : FS) (p : String) :
    lookupFs (d ++ fs) p =
      match lookupFs d p with
      | some v => some v
      | none => lookupFs fs p := by
  induction d with
  | nil => simp [lookupFs]
  | cons kv rest ih =>
    rw [List.cons_append]
    have h1 : lookupFs (kv :: (rest ++ fs)) p =
        if kv.1 == p then some kv.2 else lookupFs (rest ++ fs) p :=
      lookupFs_write (rest ++ fs) kv.1 kv.2 p
    have h2 : lookupFs (kv :: rest) p =
        if kv.1 == p then some kv.2 else lookupFs rest p :=
      lookupFs_write rest kv.1 kv.2 p
    rw [h1, h2]
    cases hk : (kv.1 == p) <;> simp [ih]

theorem assetStep_noCss (fetch : String → Option String) (fs : FS)
    (a : AssetItem) (ha : a.isCss = false) :
    assetStep fetch fs a =
      some ((downloadFile fetch a.url a.filepath fs).1, [(a.url, a.filepath)]) := by
  unfold assetStep
  rw [ha]
  rcases h : downloadFile fetch a.url a.filepath fs with ⟨fs1, d⟩
  cases d <;> simp

theorem assetStep_fail (fetch : String → Option String) (fs : FS)
    (a : AssetItem) (hf : fetch a.url = none) :
    assetStep fetch fs a = some (fs, [(a.url, a.filepath)]) := by
  unfold assetStep downloadFile
  rw [hf]

theorem downloadLoop_noCss (fetch : String → Option String) :
    ∀ (q : List AssetItem) (fs : FS), (∀ a ∈ q, a.isCss = false) →
    ∃ fs', downloadLoop fetch fs q =
      some (fs', q.map (fun a => (a.url, a.filepath)))
  | [], fs, _ => ⟨fs, rfl⟩
  | a :: rest, fs, hq => by
    have ha := hq a (List.mem_cons_self a rest)
    obtain ⟨fs', hrec⟩ := downloadLoop_noCss fetch
      rest (downloadFile fetch a.url a.filepath fs).1
      (fun x hx => hq x (List.mem_cons_of_mem a hx))
    refine ⟨fs', ?_⟩
    rw [downloadLoop, assetStep_noCss fetch fs a ha]
    simp [hrec]

theorem downloadLoop_allFail (fetch : String → Option String) :
    ∀ (q : List AssetItem) (fs : FS), (∀ a ∈ q, fetch a.url = none) →
    downloadLoop fetch fs q = some (fs, q.map (fun a => (a.url, a.filepath)))
  | [], _, _ => rfl
  | a :: rest, fs, hq => by
    have ha := hq a (List.mem_cons_self a rest)
    have hrec := downloadLoop_allFail fetch rest fs
      (fun x hx => hq x (List.mem_cons_of_mem a hx))
    rw [downloadLoop, assetStep_fail fetch fs a ha]
    simp [hrec]

theorem mirrorRun_none (fetch : String → Option String)
    (parse : String → List (String × Bool))
    (render : String → List String → String) (fs : FS) (html : String)
    (hentry : fetch BASE_URL = some html)
    (hloop : downloadLoop fetch fs (collectRefs (parse html)).1 = none) :
    mirrorRun fetch parse render fs = none := by
  unfold mirrorRun
  rw [hentry]
  show (match downloadLoop fetch fs (collectRefs (parse html)).1 with
    | none => none
    | some (fs1, log) =>
      some (RunResult.mk (writeFs fs1 (pathJoin OUT_DIR "index.html")
          (render html (collectRefs (parse html)).2))
        log (collectRefs (parse html)).2)) = none
  rw [hloop]

theorem mirrorRun_some (fetch : String → Option String)
    (parse : String → List (String × Bool))
    (render : String → List String → String) (fs : FS) (html : String)
    (fs1 : FS) (log : List (String × String))
    (hentry : fetch BASE_URL = some html)
    (hloop : downloadLoop fetch fs (collectRefs (parse html)).1 = some (fs1, log)) :
    mirrorRun fetch parse render fs =
      some (RunResult.mk (writeFs fs1 (pathJoin OUT_DIR "index.html")
          (render html (collectRefs (parse html)).2))
        log (collectRefs (parse html)).2) := by
  unfold mirrorRun
  rw [hentry]
  show (match downloadLoop fetch fs (collectRefs (parse html)).1 with
    | none => none
    | some (fs1, log) =>
      some (RunResult.mk (writeFs fs1 (pathJoin OUT_DIR "index.html")
          (render html (collectRefs (parse html)).2))
        log (collectRefs (parse html)).2)) = _
  rw [hloop]

/-! ## Claim C1: at-most-once fetch -/

/-- A parsed document carrying the same image reference twice
(two `img` tags with the same `src`). -/
def twoImgParse : String → List (String × Bool) :=
  fun _ => [("/img/logo.png", false), ("/img/logo.png", false)]

/-- The absolute URL both references resolve to. -/
def logoUrl : String := "https://global-indesign.base44.app/img/logo.png"

/-- Claim C1 is false as stated: on a document referencing the same
absolute URL twice, the mirror run invokes `downloadFile` twice for that
URL — the code maintains no per-URL dedupe set, so two fetch operations in
one run do target the same `absoluteUrl`. -/
theorem c1_counterexample :
    (mirrorRun (fun _ => some "page") twoImgParse (fun h _ => h) []).map
      (fun r => ((r.log.map Prod.fst).count logoUrl, r.log.length)) =
      some (2, 2) := by
  decide

/-- Claim C1, amended: the mirror run invokes the fetch transport
(`downloadFile`) once per queued reference, in discovery order — an
absolute URL referenced N ≥ 2 times is fetched N times, not once
(stated here for documents whose collected references carry no
stylesheet flag, so that the log is exactly the queue). -/
theorem c1_per_reference_fetch (fetch : String → Option String)
    (parse : String → List (String × Bool))
    (render : String → List String → String) (fs : FS) (html : String)
    (hentry : fetch BASE_URL = some html)
    (hnocss : ∀ a ∈ (collectRefs (parse html)).1, a.isCss = false) :
    ∃ r, mirrorRun fetch parse render fs = some r ∧
      r.log = (collectRefs (parse html)).1.map (fun a => (a.url, a.filepath)) := by
  obtain ⟨fs', hloop⟩ :=
    downloadLoop_noCss fetch (collectRefs (parse html)).1 fs hnocss
  exact ⟨_, mirrorRun_some fetch parse render fs html fs' _ hentry hloop, rfl⟩

/-- Witness for `c1_per_reference_fetch` at a concrete document. -/
theorem c1_per_reference_fetch_witness :
    ∃ r, mirrorRun (fun _ => some "x") (fun _ => [("/img/a.png", false)])
        (fun h _ => h) [] = some r ∧
      r.log = (collectRefs [("/img/a.png", false)]).1.map
        (fun a => (a.url, a.filepath)) :=
  c1_per_reference_fetch (fun _ => some "x") (fun _ => [("/img/a.png", false)])
    (fun h _ => h) [] "x" rfl (by decide)

/-! ## Claim C2: fail-open on fetch failure -/

/-- Claim C2: the rewritten attribute values are exactly the output of the
collection pass, fixed before and independently of any asset fetch; a
failed fetch makes `downloadFile` return `null` without writing; and a run
whose asset fetches all fail still completes, processing every queued
asset and writing `index.html`, with the filesystem otherwise untouched. -/
theorem c2_fail_open :
    (∀ (fetch : String → Option String) (u p : String) (fs : FS),
      fetch u = none → downloadFile fetch u p fs = (fs, none)) ∧
    (∀ (fetch : String → Option String) (parse : String → List (String × Bool))
      (render : String → List String → String) (fs : FS) (html : String)
      (r : RunResult),
      fetch BASE_URL = some html → mirrorRun fetch parse render fs = some r →
      r.attrs = (collectRefs (parse html)).2) ∧
    (∀ (fetch : String → Option String) (parse : String → List (String × Bool))
      (render : String → List String → String) (fs : FS) (html : String),
      fetch BASE_URL = some html →
      (∀ a ∈ (collectRefs (parse html)).1, fetch a.url = none) →
      mirrorRun fetch parse render fs =
        some (RunResult.mk
          (writeFs fs (pathJoin OUT_DIR "index.html")
            (render html (collectRefs (parse html)).2))
          ((collectRefs (parse html)).1.map (fun a => (a.url, a.filepath)))
          (collectRefs (parse html)).2)) := by
  refine ⟨?_, ?_, ?_⟩
  · intro fetch u p fs h
    unfold downloadFile
    rw [h]
  · intro fetch parse render fs html r hentry hrun
    rcases hl : downloadLoop fetch fs (collectRefs (parse html)).1 with _ | ⟨fs1, log⟩
    · rw [mirrorRun_none fetch parse render fs html hentry hl] at hrun
      cases hrun
    · rw [mirrorRun_some fetch parse render fs html fs1 log hentry hl] at hrun
      cases Option.some.inj hrun
      rfl
  · intro fetch parse render fs html hentry hfail
    exact mirrorRun_some fetch parse render fs html fs _ hentry
      (downloadLoop_allFail fetch (collectRefs (parse html)).1 fs hfail)

/-- Witness for `c2_fail_open`: each conjunct applied at a concrete input
(a run whose single asset fetch fails still writes `index.html`). -/
theorem c2_fail_open_witness :
    downloadFile (fun _ => none) "https://x.example/a.png" "/out/assets/a.png" []
      = ([], none) ∧
    mirrorRun (fun u => if u == BASE_URL then some "h" else none)
      (fun _ => [("/img/a.png", false)]) (fun h _ => h) [] =
      some (RunResult.mk
        (writeFs [] (pathJoin OUT_DIR "index.html")
          ((fun (h : String) (_ : List String) => h) "h"
            (collectRefs [("/img/a.png", false)]).2))
        ((collectRefs [("/img/a.png", false)]).1.map (fun a => (a.url, a.filepath)))
        (collectRefs [("/img/a.png", false)]).2) :=
  ⟨c2_fail_open.1 (fun _ => none) "https://x.example/a.png" "/out/assets/a.png" [] rfl,
   c2_fail_open.2.2 (fun u => if u == BASE_URL then some "h" else none)
     (fun _ => [("/img/a.png", false)]) (fun h _ => h) [] "h" (by decide) (by decide)⟩

/-! ## Claim C3: local path determinism -/

/-- The path-assignment rule applied by `addAsset`, as a function of the
URL's path basename and of the `/assets/` containment test on its href. -/
def assetPathRule (filename : String) (inAssets : Bool) : String :=
  if !inAssets && filename == "manifest.json" then pathJoin OUT_DIR filename
  else pathJoin ASSETS_DIR filename

/-- Every queued asset of `addAsset` records the resolved href, the
original reference, the stylesheet flag, and a destination computed by
`assetPathRule` from the basename of the resolved pathname and the
`/assets/` containment test. -/
theorem addAsset_queued (url : String) (b : Bool) (a : AssetItem)
    (r : Option String) (h : addAsset url b = (some a, r)) :
    ∃ u, resolveUrl url siteBase = some u ∧
      a.url = u.href ∧ a.originalUrl = url ∧ a.isCss = b ∧
      a.filepath = assetPathRule (basename u.path) (containsStr "/assets/" u.href) := by
  unfold addAsset at h
  split at h
  · simp at h
  · split at h
    · simp at h
    · split at h
      · simp at h
      · rename_i u hu
        refine ⟨u, hu, ?_⟩
        simp only [Prod.mk.injEq, Option.some.injEq] at h
        obtain ⟨ha, -⟩ := h
        subst ha
        refine ⟨rfl, rfl, rfl, ?_⟩
        unfold assetPathRule
        split <;> rfl

/-- Claim C3 is false as stated: the absolute URL
`https://global-indesign.base44.app/manifest.json` is assigned the local
destination `/out/manifest.json` when discovered through an HTML
attribute (`addAsset` applies the root-level `manifest.json` exception),
but `/out/assets/manifest.json` when a CSS `url()` reference resolves to
the same absolute URL (`processCss` has no such exception). -/
theorem c3_counterexample :
    (addAsset "/manifest.json" false).1 = some
      (AssetItem.mk "https://global-indesign.base44.app/manifest.json"
        "/out/manifest.json" false "/manifest.json") ∧
    processCssRun (fun _ => some "b") [] "p: url(/manifest.json)"
        "https://global-indesign.base44.app/assets/style.css" =
      some ([("/out/assets/manifest.json", "b")],
        [("https://global-indesign.base44.app/manifest.json",
          "/out/assets/manifest.json")]) ∧
    ("/out/manifest.json" : String) ≠ "/out/assets/manifest.json" := by
  decide

/-- Claim C3, amended: an HTML-discovered reference and a CSS-discovered
reference resolving to the same absolute URL are assigned the identical
local destination path, provided the URL is not hit by the root-level
`manifest.json` exception (its href contains `/assets/`, or its basename
is not `manifest.json` — the exception applies only to the HTML side)
and the cleaned CSS reference's basename agrees with the resolved
pathname's basename. -/
theorem c3_local_path_determinism (ref htmlRef : String) (base u : Url)
    (b : Bool) (a : AssetItem) (r : Option String)
    (_hcss : resolveUrl ref base = some u)
    (hres : resolveUrl htmlRef siteBase = some u)
    (hhtml : addAsset htmlRef b = (some a, r))
    (hbn : basename (stripQF ref) = basename u.path)
    (hexc : containsStr "/assets/" u.href = true ∨ basename u.path ≠ "manifest.json") :
    a.filepath = pathJoin ASSETS_DIR (basename (stripQF ref)) := by
  obtain ⟨u', hu', -, -, -, hfp⟩ := addAsset_queued htmlRef b a r hhtml
  rw [hres] at hu'
  cases Option.some.inj hu'
  rw [hfp, hbn]
  unfold assetPathRule
  rw [if_neg]
  intro hcond
  rw [Bool.and_eq_true, Bool.not_eq_true', beq_iff_eq] at hcond
  rcases hexc with hc | hm
  · rw [hcond.1] at hc
    cases hc
  · exact hm hcond.2

/-- Witness for `c3_local_path_determinism` at the CSS scenario reference
`../fonts/a.woff2?v=2` against `https://example.com/assets/style.css` and
the HTML reference `https://example.com/fonts/a.woff2?v=2`. -/
theorem c3_local_path_determinism_witness :
    (AssetItem.mk "https://example.com/fonts/a.woff2?v=2" "/out/assets/a.woff2"
      false "https://example.com/fonts/a.woff2?v=2").filepath =
      pathJoin ASSETS_DIR (basename (stripQF "../fonts/a.woff2?v=2")) :=
  c3_local_path_determinism "../fonts/a.woff2?v=2"
    "https://example.com/fonts/a.woff2?v=2"
    ⟨"https", true, "example.com", "/assets/style.css", none, none⟩
    ⟨"https", true, "example.com", "/fonts/a.woff2", some "v=2", none⟩
    false
    (AssetItem.mk "https://example.com/fonts/a.woff2?v=2" "/out/assets/a.woff2"
      false "https://example.com/fonts/a.woff2?v=2")
    (some "./assets/a.woff2")
    (by decide) (by decide) (by decide) (by decide) (Or.inr (by decide))

/-! ## Claim C4: JS rewrite scenario -/

set_option maxRecDepth 10000

theorem downloadFile_fs_mono (fetch : String → Option String) (u q p : String)
    (fs : FS) (h : existsFs fs p = true) :
    existsFs (downloadFile fetch u q fs).1 p = true := by
  unfold downloadFile
  cases hf : fetch u
  · exact h
  · exact existsFs_write_mono fs q _ p h

theorem jsStep_bad (fetch : String → Option String) (fs : FS)
    (content m : String) (hm : parseAbsUrl m = none) :
    jsStep fetch fs content m = (fs, content, []) := by
  unfold jsStep
  rw [hm]

theorem jsStep_hit (fetch : String → Option String) (fs : FS)
    (content m : String) (u : Url) (hm : parseAbsUrl m = some u)
    (hex : existsFs fs (pathJoin ASSETS_DIR (basename (stripQ u.path))) = true) :
    jsStep fetch fs content m =
      (fs, replaceAll content m ("./assets/" ++ basename (stripQ u.path)), []) := by
  unfold jsStep
  rw [hm]
  show (if existsFs fs (pathJoin ASSETS_DIR (basename (stripQ u.path))) then
      (fs, replaceAll content m ("./assets/" ++ basename (stripQ u.path)), ([] : List String))
    else ((downloadFile fetch u.href (pathJoin ASSETS_DIR (basename (stripQ u.path))) fs).1,
      replaceAll content m ("./assets/" ++ basename (stripQ u.path)), [m])) = _
  rw [if_pos hex]

theorem jsStep_miss (fetch : String → Option String) (fs : FS)
    (content m : String) (u : Url) (hm : parseAbsUrl m = some u)
    (hex : existsFs fs (pathJoin ASSETS_DIR (basename (stripQ u.path))) = false) :
    jsStep fetch fs content m =
      ((downloadFile fetch u.href (pathJoin ASSETS_DIR (basename (stripQ u.path))) fs).1,
       replaceAll content m ("./assets/" ++ basename (stripQ u.path)), [m]) := by
  unfold jsStep
  rw [hm]
  show (if existsFs fs (pathJoin ASSETS_DIR (basename (stripQ u.path))) then
      (fs, replaceAll content m ("./assets/" ++ basename (stripQ u.path)), ([] : List String))
    else ((downloadFile fetch u.href (pathJoin ASSETS_DIR (basename (stripQ u.path))) fs).1,
      replaceAll content m ("./assets/" ++ basename (stripQ u.path)), [m])) = _
  rw [hex]
  simp

theorem jsStep_fs_mono (fetch : String → Option String) (fs : FS)
    (content m p : String) (h : existsFs fs p = true) :
    existsFs (jsStep fetch fs content m).1 p = true := by
  unfold jsStep
  split
  · exact h
  · split
    · exact h
    · exact downloadFile_fs_mono fetch _ _ p fs h

theorem processJsMatches_log (fetch : String → Option String) (fs : FS)
    (content m' : String) (rest : List String) :
    (processJsMatches fetch fs content (m' :: rest)).2.2 =
      (jsStep fetch fs content m').2.2 ++
      (processJsMatches fetch (jsStep fetch fs content m').1
        (jsStep fetch fs content m').2.1 rest).2.2 := rfl

/-- Over any match list, a match string whose URL the transport serves
successfully triggers at most one `downloadFile` invocation (none when its
destination file is already on disk): the first successful download
writes the file, and the on-disk check skips every later duplicate. -/
theorem processJsMatches_count (fetch : String → Option String) (m : String)
    (u : Url) (bytes : String) (hm : parseAbsUrl m = some u)
    (hf : fetch u.href = some bytes) :
    ∀ (ms : List String) (fs : FS) (content : String),
      ((processJsMatches fetch fs content ms).2.2.count m) ≤
        (if existsFs fs (pathJoin ASSETS_DIR (basename (stripQ u.path))) then 0 else 1)
  | [], fs, content => by simp [processJsMatches]
  | m' :: rest, fs, content => by
    have hrec := fun fs' content' =>
      processJsMatches_count fetch m u bytes hm hf rest fs' content'
    rw [processJsMatches_log, List.count_append]
    by_cases hmm : m' = m
    · subst hmm
      by_cases hex : existsFs fs (pathJoin ASSETS_DIR (basename (stripQ u.path))) = true
      · rw [jsStep_hit fetch fs content m' u hm hex]
        have h2 := hrec fs (replaceAll content m' ("./assets/" ++ basename (stripQ u.path)))
        rw [if_pos hex] at h2
        rw [if_pos hex]
        simpa using h2
      · rw [Bool.not_eq_true] at hex
        rw [jsStep_miss fetch fs content m' u hm hex]
        have hex1 : existsFs (downloadFile fetch u.href
            (pathJoin ASSETS_DIR (basename (stripQ u.path))) fs).1
            (pathJoin ASSETS_DIR (basename (stripQ u.path))) = true := by
          unfold downloadFile
          rw [hf]
          simp [existsFs, lookupFs_write]
        have h2 := hrec (downloadFile fetch u.href
            (pathJoin ASSETS_DIR (basename (stripQ u.path))) fs).1
          (replaceAll content m' ("./assets/" ++ basename (stripQ u.path)))
        rw [if_pos hex1] at h2
        rw [hex]
        have hc1 : List.count m' [m'] = 1 := by simp
        simp only [Bool.false_eq_true, if_false]
        omega
    · have hlog0 : (jsStep fetch fs content m').2.2.count m = 0 := by
        rcases hp : parseAbsUrl m' with _ | u'
        · rw [jsStep_bad fetch fs content m' hp]
          simp
        · by_cases hex' : existsFs fs (pathJoin ASSETS_DIR (basename (stripQ u'.path))) = true
          · rw [jsStep_hit fetch fs content m' u' hp hex']
            simp
          · rw [Bool.not_eq_true] at hex'
            rw [jsStep_miss fetch fs content m' u' hp hex']
            simp [List.count_cons]
            intro hcc
            exact absurd hcc hmm
      rw [hlog0]
      have h2 := hrec (jsStep fetch fs content m').1 (jsStep fetch fs content m').2.1
      by_cases hex : existsFs fs (pathJoin ASSETS_DIR (basename (stripQ u.path))) = true
      · have hex1 := jsStep_fs_mono fetch fs content m' _ hex
        rw [if_pos hex1] at h2
        rw [if_pos hex]
        omega
      · rw [Bool.not_eq_true] at hex
        rw [hex]
        simp only [Bool.false_eq_true, if_false]
        split at h2 <;> omega

/-- The remote-storage URL of the JS rewrite scenario. -/
def supaUrl : String :=
  "https://qtrypzzcjebvfcihiynt.supabase.co/storage/v1/bucket/file.pdf?token=xyz"

/-- A script text containing the scenario URL twice. -/
def jsScenario : String := "x " ++ supaUrl ++ " y " ++ supaUrl ++ " z"

/-- The parsed form of `supaUrl`. -/
def supaParsed : Url :=
  ⟨"https", true, "qtrypzzcjebvfcihiynt.supabase.co",
    "/storage/v1/bucket/file.pdf", some "token=xyz", none⟩

/-- Claim C4 is false as stated: on a script text containing the same
remote-storage URL twice, when the transport fails (so no file is written
to disk), the JS pass invokes `downloadFile` twice for that URL — the
match list keeps duplicates and the only dedupe is the on-disk existence
check, which a failed download leaves unsatisfied. -/
theorem c4_counterexample :
    (processJsFile (fun _ => none) [] jsScenario).2.2 = [supaUrl, supaUrl] ∧
    ((processJsFile (fun _ => none) [] jsScenario).2.2.count supaUrl) = 2 := by
  decide

/-- Claim C4, amended: every occurrence of the matched URL is replaced by
`./assets/<basename-of-path-without-query>`, and the pass performs at most
one fetch for that URL provided the transport serves it successfully
(zero if the file already exists on disk); a failed fetch writes no file,
so duplicate matches can then retrigger the fetch.  The first conjunct is
the general at-most-once bound under a successful transport; the second
evaluates the scenario text (the URL twice, transport succeeding): both
occurrences rewritten, exactly one fetch. -/
theorem c4_js_rewrite (fetch : String → Option String) (m : String) (u : Url)
    (bytes : String) (fs : FS) (content : String)
    (hm : parseAbsUrl m = some u) (hf : fetch u.href = some bytes) :
    ((processJsFile fetch fs content).2.2.count m) ≤
      (if existsFs fs (pathJoin ASSETS_DIR (basename (stripQ u.path))) then 0 else 1) ∧
    processJsFile (fun _ => some "bytes") [] jsScenario =
      ([("/out/assets/file.pdf", "bytes")],
       "x ./assets/file.pdf y ./assets/file.pdf z", [supaUrl]) :=
  ⟨processJsMatches_count fetch m u bytes hm hf (jsMatches content) fs content,
   by decide⟩

/-- Witness for `c4_js_rewrite` at the scenario input. -/
theorem c4_js_rewrite_witness :
    ((processJsFile (fun _ => some "B") [] jsScenario).2.2.count supaUrl) ≤
      (if existsFs [] (pathJoin ASSETS_DIR (basename (stripQ supaParsed.path)))
        then 0 else 1) ∧
    processJsFile (fun _ => some "bytes") [] jsScenario =
      ([("/out/assets/file.pdf", "bytes")],
       "x ./assets/file.pdf y ./assets/file.pdf z", [supaUrl]) :=
  c4_js_rewrite (fun _ => some "B") supaUrl supaParsed "B" [] jsScenario
    (by decide) (by decide)

/-! ## Claim C5: CSS reference resolution -/

/-- Soundness of the `processCss` loop: every `downloadFile` invocation it
performs targets the raw reference resolved against the stylesheet's own
URL (query and fragment intact) and stores under the assets directory the
basename of the query/fragment-stripped reference. -/
theorem processCssGo_sound (fetch : String → Option String) (baseStr : String) :
    ∀ (l : List String) (fs fsOut : FS) (log : List (String × String)),
      processCssGo fetch baseStr fs l = some (fsOut, log) →
      ∀ p ∈ log, ∃ ref ∈ l, ∃ base u, parseAbsUrl baseStr = some base ∧
        resolveUrl ref base = some u ∧
        p = (u.href, pathJoin ASSETS_DIR (basename (stripQF ref)))
  | [], fs, fsOut, log, h, p, hp => by
    unfold processCssGo at h
    injection h with h
    injection h with h1 h2
    rw [← h2] at hp
    cases hp
  | relUrl :: rest, fs, fsOut, log, h, p, hp => by
    unfold processCssGo at h
    split at h
    · cases h
    · rename_i base hbase
      split at h
      · cases h
      · rename_i u hu
        simp only [] at h
        split at h
        · cases h
        · rename_i fs2 log2 hrec
          injection h with h
          injection h with h1 h2
          rw [← h2] at hp
          rcases List.mem_cons.mp hp with hhead | htail
          · exact ⟨relUrl, List.mem_cons_self relUrl rest, base, u, hbase, hu, hhead⟩
          · obtain ⟨ref, hrefmem, base', u', hb', hu', hp'⟩ :=
              processCssGo_sound fetch baseStr rest _ fs2 log2 hrec p htail
            exact ⟨ref, List.mem_cons_of_mem relUrl hrefmem, base', u', hb', hu', hp'⟩

/-- The CSS scenario text of the claim. -/
def cssScenario : String := "background: url(\"../fonts/a.woff2?v=2\")"

/-- Claim C5: every fetch performed by `processCss` comes from a `url()`
match that starts with neither `data:` nor `http`; its fetch target is the
match resolved against the stylesheet's own URL with query and fragment
preserved, and its stored path is the basename of the query/fragment-
stripped match inside the assets directory.  The second conjunct evaluates
the scenario: `../fonts/a.woff2?v=2` in a stylesheet at
`https://example.com/assets/style.css` is fetched from
`https://example.com/fonts/a.woff2?v=2` and stored as `assets/a.woff2`. -/
theorem c5_css_resolution :
    (∀ (fetch : String → Option String) (fs : FS) (css baseStr : String)
      (fsOut : FS) (log : List (String × String)),
      processCssRun fetch fs css baseStr = some (fsOut, log) →
      ∀ p ∈ log, ∃ ref ∈ cssUrls css,
        strStarts "data:" ref = false ∧ strStarts "http" ref = false ∧
        ∃ base u, parseAbsUrl baseStr = some base ∧ resolveUrl ref base = some u ∧
          p = (u.href, pathJoin ASSETS_DIR (basename (stripQF ref)))) ∧
    processCssRun (fun _ => some "b") [] cssScenario
        "https://example.com/assets/style.css" =
      some ([("/out/assets/a.woff2", "b")],
        [("https://example.com/fonts/a.woff2?v=2", "/out/assets/a.woff2")]) := by
  constructor
  · intro fetch fs css baseStr fsOut log h p hp
    obtain ⟨ref, hrefmem, base, u, hb, hu, hp'⟩ :=
      processCssGo_sound fetch baseStr (cssCandidates css) fs fsOut log h p hp
    rw [cssCandidates, List.mem_filter] at hrefmem
    obtain ⟨hmem, hpred⟩ := hrefmem
    rw [Bool.and_eq_true, Bool.not_eq_true', Bool.not_eq_true'] at hpred
    exact ⟨ref, hmem, hpred.1, hpred.2, base, u, hb, hu, hp'⟩
  · decide

/-- Witness for `c5_css_resolution` at the scenario stylesheet. -/
theorem c5_css_resolution_witness :
    ∀ p ∈ [("https://example.com/fonts/a.woff2?v=2", "/out/assets/a.woff2")],
      ∃ ref ∈ cssUrls cssScenario,
        strStarts "data:" ref = false ∧ strStarts "http" ref = false ∧
        ∃ base u, parseAbsUrl "https://example.com/assets/style.css" = some base ∧
          resolveUrl ref base = some u ∧
          p = (u.href, pathJoin ASSETS_DIR (basename (stripQF ref))) :=
  c5_css_resolution.1 (fun _ => some "b") [] cssScenario
    "https://example.com/assets/style.css" [("/out/assets/a.woff2", "b")]
    [("https://example.com/fonts/a.woff2?v=2", "/out/assets/a.woff2")] (by decide)

/-! ## Claims C6 and C7: data-URL passthrough and invalid-reference
fail-open -/

theorem addAsset_data (url : String) (b : Bool) (h : strStarts "data:" url = true) :
    addAsset url b = (none, none) := by
  have hne : ¬url = "" := by
    intro he
    rw [he] at h
    exact absurd h (by decide)
  unfold addAsset
  rw [if_neg hne, if_pos h]

theorem addAsset_queued_not_data (url : String) (b : Bool) (a : AssetItem)
    (r : Option String) (h : addAsset url b = (some a, r)) :
    strStarts "data:" url = false := by
  unfold addAsset at h
  split at h
  · simp at h
  · split at h
    · simp at h
    · rename_i hd
      rw [Bool.not_eq_true] at hd
      exact hd

theorem addAsset_invalid (url : String) (b : Bool) (hne : ¬url = "")
    (hd : strStarts "data:" url = false) (hres : resolveUrl url siteBase = none) :
    addAsset url b = (none, some url) := by
  unfold addAsset
  rw [if_neg hne, hd]
  simp only [Bool.false_eq_true, if_false]
  rw [hres]

theorem addAsset_attr_of_unresolved (url : String) (b : Bool)
    (hres : resolveUrl url siteBase = none) :
    (addAsset url b).2 = none ∨ (addAsset url b).2 = some url := by
  unfold addAsset
  split
  · exact Or.inl rfl
  · split
    · exact Or.inl rfl
    · rw [hres]
      exact Or.inr rfl

/-- Every queued asset arises from `addAsset` applied to its own recorded
original reference, which occurs in the document. -/
theorem collectRefs_queue_sound :
    ∀ (refs : List (String × Bool)), ∀ a ∈ (collectRefs refs).1,
      ∃ r, addAsset a.originalUrl a.isCss = (some a, r) ∧
        (a.originalUrl, a.isCss) ∈ refs
  | [] => by intro a ha; cases ha
  | (url, b) :: rest => by
    intro a ha
    unfold collectRefs at ha
    rcases haa : addAsset url b with ⟨oa, oattr⟩
    rw [haa] at ha
    cases oa with
    | none =>
      simp only at ha
      obtain ⟨r, hr, hmem⟩ := collectRefs_queue_sound rest a ha
      exact ⟨r, hr, List.mem_cons_of_mem _ hmem⟩
    | some a' =>
      simp only at ha
      rcases List.mem_cons.mp ha with rfl | htail
      · obtain ⟨u, -, -, hou, hic, -⟩ := addAsset_queued url b a oattr haa
        refine ⟨oattr, ?_, ?_⟩
        · rw [hou, hic]; exact haa
        · rw [hou, hic]; exact List.mem_cons_self _ _
      · obtain ⟨r, hr, hmem⟩ := collectRefs_queue_sound rest a htail
        exact ⟨r, hr, List.mem_cons_of_mem _ hmem⟩

/-- When `addAsset` returns `undefined` (cheerio leaves the attribute) or
returns the original reference (catch branch), the collection pass leaves
the i-th attribute byte-identical to the i-th reference. -/
theorem collectRefs_attr_preserved :
    ∀ (refs : List (String × Bool)) (i : Nat) (h : i < refs.length),
      ((addAsset (refs[i].1) (refs[i].2)).2 = none ∨
        (addAsset (refs[i].1) (refs[i].2)).2 = some (refs[i].1)) →
      (collectRefs refs).2[i]? = some (refs[i].1)
  | [], i, h => by cases h
  | (url, b) :: rest, 0, h => by
    intro hattr
    simp only [List.getElem_cons_zero] at hattr ⊢
    unfold collectRefs
    rcases haa : addAsset url b with ⟨oa, oattr⟩
    rw [haa] at hattr
    cases oa <;> rcases hattr with h0 | h0 <;> simp only [] at h0 <;>
      subst h0 <;> simp
  | (url, b) :: rest, i + 1, h => by
    intro hattr
    have hlen : i < rest.length := by simpa using h
    simp only [List.getElem_cons_succ] at hattr ⊢
    have hrec := collectRefs_attr_preserved rest i hlen hattr
    unfold collectRefs
    rcases haa : addAsset url b with ⟨oa, oattr⟩
    rcases hcr : collectRefs rest with ⟨q, attrs⟩
    rw [hcr] at hrec
    cases oa <;> simpa using hrec

theorem collectRefs_length :
    ∀ (refs : List (String × Bool)), ((collectRefs refs).2).length = refs.length
  | [] => rfl
  | (url, b) :: rest => by
    unfold collectRefs
    rcases haa : addAsset url b with ⟨oa, oattr⟩
    cases oa <;> simp [collectRefs_length rest]

/-- Claim C6: a reference starting with `data:` is never queued for
download (`addAsset` returns before pushing, and no queued asset records a
`data:` original reference), and after the rewrite pass its attribute is
byte-identical to the original value (cheerio's `attr(name, undefined)`
acts as a getter). -/
theorem c6_data_url_passthrough :
    (∀ (url : String) (b : Bool), strStarts "data:" url = true →
      addAsset url b = (none, none)) ∧
    (∀ (refs : List (String × Bool)), ∀ a ∈ (collectRefs refs).1,
      strStarts "data:" a.originalUrl = false) ∧
    (∀ (refs : List (String × Bool)) (i : Nat) (h : i < refs.length),
      strStarts "data:" (refs[i].1) = true →
      (collectRefs refs).2[i]? = some (refs[i].1)) := by
  refine ⟨addAsset_data, ?_, ?_⟩
  · intro refs a ha
    obtain ⟨r, hr, -⟩ := collectRefs_queue_sound refs a ha
    exact addAsset_queued_not_data a.originalUrl a.isCss a r hr
  · intro refs i h hdata
    refine collectRefs_attr_preserved refs i h (Or.inl ?_)
    rw [addAsset_data (refs[i].1) (refs[i].2) hdata]

/-- Witness for `c6_data_url_passthrough` at a concrete inline-data
reference. -/
theorem c6_data_url_passthrough_witness :
    addAsset "data:image/png;base64,AAAA" false = (none, none) ∧
    (collectRefs [("data:image/png;base64,AAAA", false)]).2[0]? =
      some "data:image/png;base64,AAAA" :=
  ⟨c6_data_url_passthrough.1 "data:image/png;base64,AAAA" false (by decide),
   c6_data_url_passthrough.2.2 [("data:image/png;base64,AAAA", false)] 0
     (by decide) (by decide)⟩

/-- Claim C7: when URL resolution throws on a collected reference, the
asset is not queued and the caller receives the original string back, the
attribute after the rewrite pass is byte-identical to the original
reference text, every queued asset has a resolvable original reference,
and the pass continues past the failure (one attribute per reference). -/
theorem c7_invalid_reference :
    (∀ (url : String) (b : Bool), ¬url = "" → strStarts "data:" url = false →
      resolveUrl url siteBase = none → addAsset url b = (none, some url)) ∧
    (∀ (refs : List (String × Bool)) (i : Nat) (h : i < refs.length),
      resolveUrl (refs[i].1) siteBase = none →
      (collectRefs refs).2[i]? = some (refs[i].1)) ∧
    (∀ (refs : List (String × Bool)), ∀ a ∈ (collectRefs refs).1,
      resolveUrl a.originalUrl siteBase ≠ none) ∧
    (∀ (refs : List (String × Bool)),
      ((collectRefs refs).2).length = refs.length) := by
  refine ⟨addAsset_invalid, ?_, ?_, collectRefs_length⟩
  · intro refs i h hres
    exact collectRefs_attr_preserved refs i h
      (addAsset_attr_of_unresolved (refs[i].1) (refs[i].2) hres)
  · intro refs a ha hres
    obtain ⟨r, hr, -⟩ := collectRefs_queue_sound refs a ha
    obtain ⟨u, hu, -⟩ := addAsset_queued a.originalUrl a.isCss a r hr
    rw [hres] at hu
    cases hu

/-- Witness for `c7_invalid_reference` at the malformed reference
`https://` (empty host: Node's URL constructor throws). -/
theorem c7_invalid_reference_witness :
    addAsset "https://" false = (none, some "https://") ∧
    (collectRefs [("/img/a.png", false), ("https://", false)]).2[1]? =
      some "https://" ∧
    ((collectRefs [("/img/a.png", false), ("https://", false)]).2).length = 2 :=
  ⟨c7_invalid_reference.1 "https://" false (by decide) (by decide) (by decide),
   c7_invalid_reference.2.1 [("/img/a.png", false), ("https://", false)] 1
     (by decide) (by decide),
   c7_invalid_reference.2.2.2 [("/img/a.png", false), ("https://", false)]⟩

/-! ## Claim C8: the final audit -/

/-- Claim C8 fails on the code: the audit runs before the `index.html`
write and reads `index.html` with `readFileSync`, so on an output
directory with no pre-existing `index.html` (any fresh run) it throws,
aborting the run before `index.html` is ever written.  First conjunct:
whenever `index.html` is absent the audit-then-write step aborts; second:
the concrete fresh-directory evaluation; third: with a pre-existing
`index.html` the audit is a pure read returning only warnings. -/
theorem c8_audit_aborts_on_fresh_dir :
    (∀ (fs : FS) (jsFiles : List String) (htmlOut : String),
      lookupFs fs (pathJoin OUT_DIR "index.html") = none →
      auditThenWrite fs jsFiles htmlOut = none) ∧
    auditThenWrite [] [] "<p>final</p>" = none ∧
    finalAudit [("/out/index.html", "<img src=\"./assets/logo.png\">")] [] =
      some ["./assets/logo.png"] := by
  refine ⟨?_, by decide, by decide⟩
  intro fs jsFiles htmlOut h
  unfold auditThenWrite finalAudit
  rw [h]

/-- Witness for `c8_audit_aborts_on_fresh_dir` at a fresh filesystem. -/
theorem c8_audit_aborts_on_fresh_dir_witness :
    auditThenWrite [] ["app.js"] "out" = none :=
  c8_audit_aborts_on_fresh_dir.1 [] ["app.js"] "out" (by decide)

/-! ## Claim C9: idempotence

The run of `sync.js` never reads the filesystem: every filesystem
operation is a write whose path and contents are functions of the fetch
transport alone.  The shift lemmas below make this explicit: running from
any filesystem equals running from the empty one and appending. -/

/-- The writes `downloadFile` performs, as a pure function of the
transport. -/
def dlDelta (fetch : String → Option String) (u q : String) : FS :=
  match fetch u with
  | some d => [(q, d)]
  | none => []

theorem downloadFile_fst (fetch : String → Option String) (u q : String) (fs : FS) :
    (downloadFile fetch u q fs).1 = dlDelta fetch u q ++ fs := by
  unfold downloadFile dlDelta
  cases fetch u <;> simp [writeFs]

theorem processCssGo_shift (fetch : String → Option String) (baseStr : String) :
    ∀ (l : List String) (fs : FS),
      processCssGo fetch baseStr fs l =
        (processCssGo fetch baseStr [] l).map (fun r => (r.1 ++ fs, r.2))
  | [], fs => by simp [processCssGo]
  | relUrl :: rest, fs => by
    have ih := processCssGo_shift fetch baseStr rest
    unfold processCssGo
    cases hb : parseAbsUrl baseStr with
    | none => simp [hb]
    | some base =>
      simp only [hb]
      cases hu : resolveUrl relUrl base with
      | none => simp [hu]
      | some u =>
        simp only [hu, downloadFile_fst, List.append_nil]
        rw [ih (dlDelta fetch u.href (pathJoin ASSETS_DIR (basename (stripQF relUrl))) ++ fs),
            ih (dlDelta fetch u.href (pathJoin ASSETS_DIR (basename (stripQF relUrl))))]
        cases hgo : processCssGo fetch baseStr [] rest
        · simp
        · rename_i pr
          simp [List.append_assoc]

theorem assetStep_shift (fetch : String → Option String) (a : AssetItem) (fs : FS) :
    assetStep fetch fs a = (assetStep fetch [] a).map (fun r => (r.1 ++ fs, r.2)) := by
  unfold assetStep downloadFile
  cases hf : fetch a.url with
  | none => simp
  | some d =>
    cases hcss : a.isCss with
    | false => simp [writeFs]
    | true =>
      simp only []
      unfold processCssRun
      rw [processCssGo_shift fetch a.url (cssCandidates d) (writeFs fs a.filepath d),
          processCssGo_shift fetch a.url (cssCandidates d) (writeFs [] a.filepath d)]
      cases hgo : processCssGo fetch a.url [] (cssCandidates d)
      · simp
      · rename_i pr
        simp [writeFs, List.append_assoc]

theorem downloadLoop_shift (fetch : String → Option String) :
    ∀ (q : List AssetItem) (fs : FS),
      downloadLoop fetch fs q = (downloadLoop fetch [] q).map (fun r => (r.1 ++ fs, r.2))
  | [], fs => by simp [downloadLoop]
  | a :: rest, fs => by
    have ihr := downloadLoop_shift fetch rest
    unfold downloadLoop
    rw [assetStep_shift fetch a fs]
    cases hs : assetStep fetch [] a with
    | none => simp
    | some pr =>
      simp only [Option.map_some']
      rw [ihr (pr.1 ++ fs), ihr pr.1]
      cases hd : downloadLoop fetch [] rest with
      | none => simp
      | some pr2 => simp [List.append_assoc]

theorem mirrorRun_shift (fetch : String → Option String)
    (parse : String → List (String × Bool))
    (render : String → List String → String) (fs : FS) :
    mirrorRun fetch parse render fs =
      (mirrorRun fetch parse render []).map
        (fun r => RunResult.mk (r.fs ++ fs) r.log r.attrs) := by
  unfold mirrorRun
  cases he : fetch BASE_URL with
  | none => simp
  | some html =>
    simp only []
    rw [downloadLoop_shift fetch (collectRefs (parse html)).1 fs]
    cases hd : downloadLoop fetch [] (collectRefs (parse html)).1 with
    | none => simp
    | some pr => simp [writeFs]

/-- Claim C9: with a transport returning the same bytes for every URL in
both runs, a second mirror run started from the first run's output
filesystem completes with the same fetch log and rewritten attributes and
leaves every file byte-identical to the first run's output (the run reads
nothing from disk and every write is repeated with identical content). -/
theorem c9_idempotent (fetch : String → Option String)
    (parse : String → List (String × Bool))
    (render : String → List String → String) (fs0 : FS) (r1 : RunResult)
    (h1 : mirrorRun fetch parse render fs0 = some r1) :
    ∃ r2, mirrorRun fetch parse render r1.fs = some r2 ∧
      r2.log = r1.log ∧ r2.attrs = r1.attrs ∧
      ∀ p, lookupFs r2.fs p = lookupFs r1.fs p := by
  rw [mirrorRun_shift fetch parse render fs0] at h1
  cases h0 : mirrorRun fetch parse render [] with
  | none => rw [h0] at h1; cases h1
  | some r0 =>
    rw [h0] at h1
    simp only [Option.map_some'] at h1
    injection h1 with h1
    subst h1
    refine ⟨RunResult.mk (r0.fs ++ (r0.fs ++ fs0)) r0.log r0.attrs, ?_, rfl, rfl, ?_⟩
    · rw [mirrorRun_shift fetch parse render
        (RunResult.mk (r0.fs ++ fs0) r0.log r0.attrs).fs, h0]
      rfl
    · intro p
      simp only []
      rw [lookupFs_append, lookupFs_append]
      cases hl : lookupFs r0.fs p <;> simp [lookupFs_append, hl]

/-- Witness for `c9_idempotent`: a concrete first run and its re-run. -/
theorem c9_idempotent_witness :
    ∃ r2, mirrorRun (fun _ => some "h") (fun _ => [("/img/a.png", false)])
        (fun h _ => h)
        (RunResult.mk [("/out/index.html", "h"), ("/out/assets/a.png", "h")]
          [("https://global-indesign.base44.app/img/a.png", "/out/assets/a.png")]
          ["./assets/a.png"]).fs = some r2 ∧
      r2.log = (RunResult.mk [("/out/index.html", "h"), ("/out/assets/a.png", "h")]
          [("https://global-indesign.base44.app/img/a.png", "/out/assets/a.png")]
          ["./assets/a.png"]).log ∧
      r2.attrs = ["./assets/a.png"] ∧
      ∀ p, lookupFs r2.fs p =
        lookupFs [("/out/index.html", "h"), ("/out/assets/a.png", "h")] p :=
  c9_idempotent (fun _ => some "h") (fun _ => [("/img/a.png", false)])
    (fun h _ => h) []
    (RunResult.mk [("/out/index.html", "h"), ("/out/assets/a.png", "h")]
      [("https://global-indesign.base44.app/img/a.png", "/out/assets/a.png")]
      ["./assets/a.png"]) (by decide)

/-! ## Claim C10: basename collision -/

theorem downloadLoop_pair (fetch : String → Option String) (fs : FS)
    (a1 a2 : AssetItem) (h1 : a1.isCss = false) (h2 : a2.isCss = false) :
    downloadLoop fetch fs [a1, a2] =
      some ((downloadFile fetch a2.url a2.filepath
          (downloadFile fetch a1.url a1.filepath fs).1).1,
        [(a1.url, a1.filepath), (a2.url, a2.filepath)]) := by
  simp [downloadLoop, assetStep_noCss, h1, h2]

/-- Claim C10: the local destination of an HTML-discovered asset is a
function only of the basename of its URL's path and the `/assets/`
substring test on its href (first conjunct); away from the `manifest.json`
special case that function ignores the substring test and always yields
`assets/<basename>` — the same destination the CSS and JS passes assign —
so distinct URLs sharing a path basename share one local file (second
conjunct); and when two queued assets share a destination, the later
successful download overwrites the earlier one's bytes (third conjunct). -/
theorem c10_basename_collision :
    (∀ (url : String) (b : Bool) (a : AssetItem) (r : Option String) (u : Url),
      addAsset url b = (some a, r) → resolveUrl url siteBase = some u →
      a.filepath = assetPathRule (basename u.path) (containsStr "/assets/" u.href)) ∧
    (∀ (fn : String) (t1 t2 : Bool), fn ≠ "manifest.json" →
      assetPathRule fn t1 = assetPathRule fn t2 ∧
      assetPathRule fn t1 = pathJoin ASSETS_DIR fn) ∧
    (∀ (fetch : String → Option String) (fs : FS) (a1 a2 : AssetItem)
      (d1 d2 : String),
      a1.isCss = false → a2.isCss = false → a1.filepath = a2.filepath →
      fetch a1.url = some d1 → fetch a2.url = some d2 →
      ∃ fs' log, downloadLoop fetch fs [a1, a2] = some (fs', log) ∧
        lookupFs fs' a1.filepath = some d2) := by
  refine ⟨?_, ?_, ?_⟩
  · intro url b a r u ha hres
    obtain ⟨u', hu', -, -, -, hfp⟩ := addAsset_queued url b a r ha
    rw [hres] at hu'
    cases Option.some.inj hu'
    exact hfp
  · intro fn t1 t2 hfn
    have hbeq : (fn == "manifest.json") = false := by
      rw [beq_eq_false_iff_ne]
      exact hfn
    unfold assetPathRule
    rw [hbeq]
    simp
  · intro fetch fs a1 a2 d1 d2 h1 h2 hfp hf1 hf2
    refine ⟨_, _, downloadLoop_pair fetch fs a1 a2 h1 h2, ?_⟩
    have hd2 : downloadFile fetch a2.url a2.filepath
        (downloadFile fetch a1.url a1.filepath fs).1 =
        (writeFs (downloadFile fetch a1.url a1.filepath fs).1 a2.filepath d2,
          some d2) := by
      unfold downloadFile
      rw [hf2]
    rw [hd2]
    simp only []
    rw [hfp, lookupFs_write]
    simp

/-- Witness for `c10_basename_collision`: two distinct absolute URLs whose
paths share the basename `f.png` map to the same local file, and the
second download's bytes win. -/
theorem c10_basename_collision_witness :
    (AssetItem.mk "https://e.com/x/f.png" "/out/assets/f.png" false "u1").filepath =
      assetPathRule (basename "/x/f.png") (containsStr "/assets/"
        "https://e.com/x/f.png") ∧
    assetPathRule "f.png" true = assetPathRule "f.png" false ∧
    ∃ fs' log,
      downloadLoop (fun u => if u == "https://e.com/x/f.png" then some "D1" else some "D2")
        [] [AssetItem.mk "https://e.com/x/f.png" "/out/assets/f.png" false "u1",
            AssetItem.mk "https://e.com/y/f.png" "/out/assets/f.png" false "u2"] =
        some (fs', log) ∧
      lookupFs fs'
        (AssetItem.mk "https://e.com/x/f.png" "/out/assets/f.png" false "u1").filepath =
        some "D2" :=
  ⟨c10_basename_collision.1 "https://e.com/x/f.png" false
      (AssetItem.mk "https://e.com/x/f.png" "/out/assets/f.png" false
        "https://e.com/x/f.png")
      (some "./assets/f.png")
      ⟨"https", true, "e.com", "/x/f.png", none, none⟩ (by decide) (by decide),
   (c10_basename_collision.2.1 "f.png" true false (by decide)).1,
   c10_basename_collision.2.2
     (fun u => if u == "https://e.com/x/f.png" then some "D1" else some "D2") []
     (AssetItem.mk "https://e.com/x/f.png" "/out/assets/f.png" false "u1")
     (AssetItem.mk "https://e.com/y/f.png" "/out/assets/f.png" false "u2")
     "D1" "D2" rfl rfl rfl (by decide) (by decide)⟩
